import Mathlib

/-!
Verification of the core routines of `infodump+` (src/infodump+.py): the
largest-files scanner (`largest_files`, lines 111-147), the top-CPU-process
ranker (`top_cpu_processes`, lines 149-168) and the report driver (`main`,
lines 242-268).

Shallow embedding conventions:
- the filesystem walker is an explicit input: `os.walk(path)` is modelled by
  the list of `(root, filenames)` pairs it yields (the `dirs` component is
  never used by the source).  With its default `onerror=None`, `os.walk`
  swallows every error from `scandir`: on a root that does not exist or
  cannot be opened it yields the empty list and raises nothing;
- `os.path.getsize` is an explicit input `String → Option Nat`; `none`
  models an `OSError` (file vanished, permission denied, broken symlink),
  which the source catches per entry (lines 126-130);
- Python byte sizes are `Nat` (`st_size` is non-negative); CPU percentages
  are exact rationals `ℚ`: the source only ever compares them, and the order
  on the (finite, non-NaN) floats psutil produces embeds in the order on ℚ;
- a Python `None` stored under the `cpu_percent` key is the explicit value
  `PyVal.none_v`, distinct from the key being absent (`Option.none`);
- printed output is a `List Line`; an exception escaping a function is the
  `Option String` component carried beside it.  `print`/`console.print`
  never fail in this model, and styling is cosmetic (spec §6).
-/

namespace Infodump

/-- A Python value that can sit under the `cpu_percent` key of `p.info`:
a number (modelled as an exact rational), or `None` (psutil's `ad_value`). -/
inductive PyVal where
  | num (q : ℚ)
  | none_v
deriving DecidableEq

/-- One process record as `psutil.process_iter(['pid', 'name', 'cpu_percent'])`
yields it: `cpu_percent = Option.none` models the key being absent from the
dict, `some .none_v` a present `None`, `some (.num q)` a present number. -/
structure Proc where
  pid : Nat
  name : String
  cpu_percent : Option PyVal
deriving DecidableEq

/-- One printed line of the report.  Scanner lines are real strings (their
formatting is part of the contract); a process line keeps its structured
fields, because its text embeds Python's `repr` of a float, which is outside
the model. -/
inductive Line where
  | text (s : String)
  | proc (pid : Nat) (name : String) (cpu : PyVal)
deriving DecidableEq

/-- Python slice `l[:k]` for an `int` k: a non-negative `k` takes the first
`k` elements; a negative `k` stops at `max 0 (len l + k)`, i.e. drops the
last `|k|` elements (line 131 `[:count]`, line 163 `[:n]`). -/
def pyTake (k : Int) (l : List α) : List α :=
  if 0 ≤ k then l.take k.toNat
  else l.take (l.length - (-k).toNat)

/-- `os.path.join(root, fname)` for a root without a trailing slash, the form
`os.walk` hands to line 125. -/
def pyJoin (root fname : String) : String := root ++ "/" ++ fname

/-- Lines 124-130: for one `(root, filenames)` pair of the walk, the
`(size, path)` pairs appended to `files`.  An entry whose `os.path.getsize`
raises `OSError` (`gs _ = none`) is skipped by the `continue` on line 130. -/
def collectStep (root : String) (fnames : List String) (gs : String → Option Nat) :
    List (Nat × String) :=
  fnames.filterMap fun fn => (gs (pyJoin root fn)).map fun sz => (sz, pyJoin root fn)

/-- Lines 122-130: the full `files` list accumulated over the walk. -/
def collectFiles (walk : List (String × List String)) (gs : String → Option Nat) :
    List (Nat × String) :=
  match walk with
  | [] => []
  | d :: rest => collectStep d.1 d.2 gs ++ collectFiles rest gs

/-- The order `sorted(files, reverse=True)` (line 131) sorts by: Python
compares the `(size, path)` tuples lexicographically and `reverse=True` flips
the result, so `pairGe a b` holds when `a` comes no later than `b`: larger
size first, and for equal sizes the lexicographically larger path first
(Python compares strings by code points, as `String.lt` does). -/
def pairGe (a b : Nat × String) : Prop :=
  b.1 < a.1 ∨ (a.1 = b.1 ∧ ¬ a.2 < b.2)

instance : DecidableRel pairGe := fun a b =>
  inferInstanceAs (Decidable (b.1 < a.1 ∨ (a.1 = b.1 ∧ ¬ a.2 < b.2)))

instance : IsTotal (Nat × String) pairGe where
  total a b := by
    rcases Nat.lt_trichotomy a.1 b.1 with h | h | h
    · exact Or.inr (Or.inl h)
    · by_cases h2 : a.2 < b.2
      · exact Or.inr (Or.inr ⟨h.symm, asymm h2⟩)
      · exact Or.inl (Or.inr ⟨h, h2⟩)
    · exact Or.inl (Or.inl h)

instance : IsTrans (Nat × String) pairGe where
  trans a b c hab hbc := by
    rcases hab with h1 | ⟨e1, s1⟩
    · rcases hbc with h2 | ⟨e2, _⟩
      · exact Or.inl (h2.trans h1)
      · exact Or.inl (e2 ▸ h1)
    · rcases hbc with h2 | ⟨e2, s2⟩
      · exact Or.inl (e1 ▸ h2)
      · refine Or.inr ⟨e1.trans e2, fun hlt => ?_⟩
        exact absurd (lt_of_le_of_lt (not_lt.mp s1) (lt_of_lt_of_le hlt (not_lt.mp s2)))
          (lt_irrefl _)

instance : IsAntisymm (Nat × String) pairGe where
  antisymm a b hab hba := by
    rcases hab with h1 | ⟨e1, s1⟩
    · rcases hba with h2 | ⟨e2, _⟩
      · exact absurd (h1.trans h2) (lt_irrefl _)
      · exact absurd (e2 ▸ h1) (lt_irrefl _)
    · rcases hba with h2 | ⟨e2, s2⟩
      · exact absurd (e1 ▸ h2) (lt_irrefl _)
      · exact Prod.ext e1 (le_antisymm (not_lt.mp s2) (not_lt.mp s1))

/-- Line 131: the selection `sorted(files, reverse=True)[:count]`.  Python's
sort is modelled by insertion sort with the non-strict relation `pairGe`; on
the total order of `(size, path)` tuples every sorted permutation is equal,
so this is exactly the list CPython's timsort produces. -/
def selectTop (files : List (Nat × String)) (count : Int) : List (Nat × String) :=
  pyTake count (List.insertionSort pairGe files)

/-- Round `a / b` to the nearest integer, ties to even (the rounding `%.2f`
applies to the quotient scaled by 100). -/
def roundHalfEven (a b : Nat) : Nat :=
  let q := a / b
  let r := a % b
  if 2 * r < b then q
  else if b < 2 * r then q + 1
  else if q % 2 = 0 then q else q + 1

/-- The two decimal digits `%.2f` always prints, for a fractional part
`frac < 100`. -/
def fracChars (frac : Nat) : String :=
  String.mk [Nat.digitChar (frac / 10), Nat.digitChar (frac % 10)]

/-- `f"{size / den:.2f}"`: the quotient printed with exactly two decimal
digits.  The source divides floats; the model rounds the exact rational
`size / den` half-to-even, which agrees with the printed double on every
byte size below 2^53 (and in particular on all of the spec's scenarios). -/
def fmt2 (size den : Nat) : String :=
  let c := roundHalfEven (size * 100) den
  Nat.repr (c / 100) ++ "." ++ fracChars (c % 100)

/-- Lines 132-136: `GB` when `size >= 1024 ** 3`, else `MB`. -/
def formatSize (size : Nat) : String :=
  if 1024 ^ 3 ≤ size then fmt2 size (1024 ^ 3) ++ " GB"
  else fmt2 size (1024 ^ 2) ++ " MB"

/-- Line 137: `f"{formatted_size} - {f}"`. -/
def entryLine (sz : Nat) (f : String) : String := formatSize sz ++ " - " ++ f

/-- What one report section emits: its header line, its body lines, and the
exception escaping it (`none` when it returns normally). -/
structure SectionOut where
  header : Line
  body : List Line
  exc : Option String
deriving DecidableEq

/-- Everything a section prints, in order. -/
def SectionOut.lines (s : SectionOut) : List Line := s.header :: s.body

/-- Lines 111-147, `largest_files(path, count)` over an explicit walk and
size oracle.  `exc = none` unconditionally, and no `Error:` line is ever in
`body`: the `try` body raises nothing in this model — `os.walk` with its
default `onerror=None` swallows every traversal error (a bad root yields an
empty walk), `os.path.getsize` raises only `OSError`, which lines 129-130
catch, and sorting `(int, str)` tuples and slicing are total — so the
`except Exception` branch printing `Error: {e}` (lines 142-147) is
unreachable. -/
def largest_files (path : String) (walk : List (String × List String))
    (gs : String → Option Nat) (count : Int) : SectionOut :=
  { header := Line.text (Int.repr count ++ " LARGEST FILES in " ++ path)
    body := (selectTop (collectFiles walk gs) count).map fun e =>
      Line.text (entryLine e.1 e.2)
    exc := none }

/-- Line 160: `p.info.get('cpu_percent', 0)` — the sort key; an absent key
defaults to the integer `0`. -/
def procKey (p : Proc) : PyVal := p.cpu_percent.getD (PyVal.num 0)

/-- The numeric value of a sort key; only meaningful when the key is a
number (a junk `0` is assigned to `None`, which the sort never reaches:
see `rankProcesses`). -/
def keyQ (p : Proc) : ℚ :=
  match procKey p with
  | PyVal.num q => q
  | PyVal.none_v => 0

/-- Does some entry carry a present `None` under `cpu_percent`?  Such a key
is incomparable with every other key (`None < x` is a `TypeError` in Python
for numbers and for `None` alike). -/
def hasNoneKey (procs : List Proc) : Bool :=
  procs.any fun p => decide (p.cpu_percent = some PyVal.none_v)

/-- `cpuGe p q`: the key of `p` is at least the key of `q` — the descending
order `sorted(..., key=..., reverse=True)` of line 158-162 establishes.
Python's sort is stable and `reverse=True` does not reorder equal keys, so
insertion sort with this non-strict relation reproduces it exactly. -/
def cpuGe (p q : Proc) : Prop := keyQ q ≤ keyQ p

instance : DecidableRel cpuGe := fun p q =>
  inferInstanceAs (Decidable (keyQ q ≤ keyQ p))

instance : IsTotal Proc cpuGe where
  total a b := le_total (keyQ b) (keyQ a)

instance : IsTrans Proc cpuGe where
  trans _ _ _ hab hbc := le_trans hbc hab

/-- Lines 158-162: `sorted(process_iter(...), key=lambda p:
p.info.get('cpu_percent', 0), reverse=True)`.  CPython's sort raises
`TypeError` exactly when the list has at least two elements and some key is
`None`: with two or more elements timsort compares every element at least
once (run detection compares consecutive elements, binary insertion and
merging compare each remaining element), and every comparison against `None`
raises; with fewer than two elements no comparison happens at all. -/
def rankProcesses (procs : List Proc) : Except String (List Proc) :=
  if 2 ≤ procs.length ∧ hasNoneKey procs = true then
    Except.error "TypeError: '<' not supported with NoneType"
  else
    Except.ok (List.insertionSort cpuGe procs)

/-- Lines 163-168: the print loop over `processes[:n]`.  Each line indexes
`p.info['cpu_percent']` directly, so an entry whose key is absent raises
`KeyError` there (a present `None` prints fine); lines already printed stay
printed. -/
def printProcs : List Proc → List Line × Option String
  | [] => ([], none)
  | p :: rest =>
    match p.cpu_percent with
    | none => ([], some "KeyError: cpu_percent")
    | some v =>
      let r := printProcs rest
      (Line.proc p.pid p.name v :: r.1, r.2)

/-- Lines 149-168, `top_cpu_processes(n)`.  The process snapshot is an
explicit input: `Except.error` models `psutil.process_iter` itself raising
(process list unavailable).  The function has no `try`/`except`, so every
failure — an unavailable snapshot, the sort's `TypeError`, the print loop's
`KeyError` — escapes to the caller; the header was already printed (line
157 runs first). -/
def top_cpu_processes (snap : Except String (List Proc)) (n : Int) : SectionOut :=
  let hdr := Line.text ("TOP " ++ Int.repr n ++ " CPU PROCESSES")
  match snap with
  | Except.error e => { header := hdr, body := [], exc := some e }
  | Except.ok procs =>
    match rankProcesses procs with
    | Except.error e => { header := hdr, body := [], exc := some e }
    | Except.ok ranked =>
      let r := printProcs (pyTake n ranked)
      { header := hdr, body := r.1, exc := r.2 }

/-- The collaborators `main` consumes, beyond the two core routines: the
lines the basic/network/memory/disk sections print (external queries,
modelled as their output), the scanner's walk and size oracle, the process
snapshot, and the lines the two temperature sections would print. -/
structure Env where
  preLines : List Line
  path : String
  walk : List (String × List String)
  getsize : String → Option Nat
  snap : Except String (List Proc)
  tempLines : List Line
  nvidiaLines : List Line

/-- The CLI arguments that reach the core (lines 247-252). -/
structure Args where
  largest : Int
  cpu : Int
  no_temp : Bool
  no_nvidia : Bool

/-- Lines 259-268 of `main`: the sections run in order with no surrounding
handler, so the first exception to escape a section aborts everything after
it (Python unwinds out of `main`).  Returns the lines printed before
termination and the uncaught exception, if any. -/
def pyMain (env : Env) (a : Args) : List Line × Option String :=
  let scan := largest_files env.path env.walk env.getsize a.largest
  match scan.exc with
  | some e => (env.preLines ++ scan.lines, some e)
  | none =>
    let cpu := top_cpu_processes env.snap a.cpu
    match cpu.exc with
    | some e => (env.preLines ++ scan.lines ++ cpu.lines, some e)
    | none =>
      let t := if a.no_temp then [] else env.tempLines
      let nv := if a.no_nvidia then [] else env.nvidiaLines
      (env.preLines ++ scan.lines ++ cpu.lines ++ t ++ nv, none)

/-- Modelled from the spec: "Sort all entries by usage percentage
descending, stable tie-break by PID ascending" (§4.2 step 2) — the order the
spec prescribes for the CPU ranker, for comparison with the source's
`cpuGe`. -/
def specCpuRel (p q : Proc) : Prop :=
  keyQ q < keyQ p ∨ (keyQ p = keyQ q ∧ p.pid ≤ q.pid)

instance : DecidableRel specCpuRel := fun p q =>
  inferInstanceAs (Decidable (keyQ q < keyQ p ∨ (keyQ p = keyQ q ∧ p.pid ≤ q.pid)))

/-- Modelled from the spec: the spec's CPU ranking order applied to a
snapshot (usage descending, ties by PID ascending). -/
def specCpuSort (procs : List Proc) : List Proc :=
  List.insertionSort specCpuRel procs

/-- Modelled from the spec: "a bounded top-K heap of size K instead of
buffering every entry" (§4.1 step 3) — streaming top-K selection that keeps
a buffer of at most `k` entries, inserting each `(size, path)` pair in order
and discarding everything beyond the `k` best. -/
def heapTopK (k : Nat) (l : List (Nat × String)) : List (Nat × String) :=
  l.foldl (fun acc x => (List.orderedInsert pairGe x acc).take k) []

/-- A small concrete directory tree: the spec's scenario `{500MB, 2GB, 10MB}`
(sizes 500·2^20, 2·2^30 and 10·2^20 bytes). -/
def demoWalk : List (String × List String) := [("/d", ["mid", "big", "small"])]

/-- The size oracle of the demo tree. -/
def demoSize : String → Option Nat := fun p =>
  if p = "/d/big" then some 2147483648
  else if p = "/d/mid" then some 524288000
  else if p = "/d/small" then some 10485760
  else none

lemma pyTake_nonneg {k : Int} (hk : 0 ≤ k) (l : List α) :
    pyTake k l = l.take k.toNat := by
  simp [pyTake, hk]

lemma pyTake_neg {k : Int} (hk : k < 0) (l : List α) :
    pyTake k l = l.take (l.length - (-k).toNat) := by
  simp [pyTake, not_le.mpr hk]

/-- Claim C2: for every root (walk and size oracle) and every K ≥ 0, the
scanner raises no error and returns exactly `min K L` entries, where `L` is
the number of collected `(size, path)` pairs: the first `K` entries of a
sorted permutation of the collected pairs, descending by size with the
deterministic path tie-break of `pairGe`; for K = 0 this is empty without
error, and when fewer than K entries exist all of them are returned. -/
theorem scanner_returns_sorted_topk (path : String) (walk : List (String × List String))
    (gs : String → Option Nat) (k : Int) (hk : 0 ≤ k) :
    (largest_files path walk gs k).exc = none ∧
    (largest_files path walk gs k).body.length = min k.toNat (collectFiles walk gs).length ∧
    ∃ l : List (Nat × String), l.Perm (collectFiles walk gs) ∧ l.Sorted pairGe ∧
      (largest_files path walk gs k).body =
        (l.take k.toNat).map fun e => Line.text (entryLine e.1 e.2) := by
  refine ⟨rfl, ?_, List.insertionSort pairGe (collectFiles walk gs),
    List.perm_insertionSort pairGe _, List.sorted_insertionSort pairGe _, ?_⟩
  · simp [largest_files, selectTop, pyTake_nonneg hk,
      (List.perm_insertionSort pairGe (collectFiles walk gs)).length_eq]
  · simp [largest_files, selectTop, pyTake_nonneg hk]

/-- Witness for C2 on the demo tree with K = 2. -/
theorem scanner_returns_sorted_topk_witness :
    (0 ≤ (2 : Int)) ∧
    ((largest_files "/d" demoWalk demoSize 2).exc = none ∧
    (largest_files "/d" demoWalk demoSize 2).body.length =
      min (2 : Int).toNat (collectFiles demoWalk demoSize).length ∧
    ∃ l : List (Nat × String), l.Perm (collectFiles demoWalk demoSize) ∧ l.Sorted pairGe ∧
      (largest_files "/d" demoWalk demoSize 2).body =
        (l.take (2 : Int).toNat).map fun e => Line.text (entryLine e.1 e.2)) :=
  ⟨by decide, scanner_returns_sorted_topk "/d" demoWalk demoSize 2 (by decide)⟩

/-- Claim C10: for a negative count K the scanner does not fail: the slice
`[:K]` keeps all but the last `|K|` elements of the descending sort, so the
result is the `L + K` largest entries when `|K| ≤ L` and empty when
`L ≤ |K|`. -/
theorem scanner_negative_count (path : String) (walk : List (String × List String))
    (gs : String → Option Nat) (k : Int) (hk : k < 0) :
    (largest_files path walk gs k).exc = none ∧
    (∃ l : List (Nat × String), l.Perm (collectFiles walk gs) ∧ l.Sorted pairGe ∧
      (largest_files path walk gs k).body =
        (l.take ((collectFiles walk gs).length - (-k).toNat)).map fun e =>
          Line.text (entryLine e.1 e.2)) ∧
    ((-k).toNat ≤ (collectFiles walk gs).length →
      (largest_files path walk gs k).body.length =
        (collectFiles walk gs).length - (-k).toNat) ∧
    ((collectFiles walk gs).length ≤ (-k).toNat →
      (largest_files path walk gs k).body = []) := by
  have hlen : (List.insertionSort pairGe (collectFiles walk gs)).length =
      (collectFiles walk gs).length :=
    (List.perm_insertionSort pairGe _).length_eq
  refine ⟨rfl, ⟨List.insertionSort pairGe (collectFiles walk gs),
    List.perm_insertionSort pairGe _, List.sorted_insertionSort pairGe _, ?_⟩, ?_, ?_⟩
  · simp [largest_files, selectTop, pyTake_neg hk, hlen]
  · intro _
    simp [largest_files, selectTop, pyTake_neg hk, hlen, Nat.min_eq_left (Nat.sub_le _ _)]
  · intro hle
    simp [largest_files, selectTop, pyTake_neg hk, hlen, Nat.sub_eq_zero_of_le hle]

/-- Witness for C10: K = -1 on the demo tree (three files, so two remain). -/
theorem scanner_negative_count_witness :
    ((-1 : Int) < 0) ∧
    ((largest_files "/d" demoWalk demoSize (-1)).exc = none ∧
    (∃ l : List (Nat × String), l.Perm (collectFiles demoWalk demoSize) ∧ l.Sorted pairGe ∧
      (largest_files "/d" demoWalk demoSize (-1)).body =
        (l.take ((collectFiles demoWalk demoSize).length - (-(-1 : Int)).toNat)).map fun e =>
          Line.text (entryLine e.1 e.2)) ∧
    ((-(-1 : Int)).toNat ≤ (collectFiles demoWalk demoSize).length →
      (largest_files "/d" demoWalk demoSize (-1)).body.length =
        (collectFiles demoWalk demoSize).length - (-(-1 : Int)).toNat) ∧
    ((collectFiles demoWalk demoSize).length ≤ (-(-1 : Int)).toNat →
      (largest_files "/d" demoWalk demoSize (-1)).body = [])) :=
  ⟨by decide, scanner_negative_count "/d" demoWalk demoSize (-1) (by decide)⟩

/-- Claim C5: an entry whose size cannot be measured (`gs` returns `none`)
is silently skipped: every collected pair carries the size the oracle
actually measured for its path (so a failed entry is never collected, in
particular never with size zero), and every measurable entry of the walk is
collected — one entry's failure never loses the remaining entries. -/
theorem scanner_skips_unmeasured (walk : List (String × List String))
    (gs : String → Option Nat) :
    (∀ sz p, (sz, p) ∈ collectFiles walk gs → gs p = some sz) ∧
    (∀ root fnames fn, (root, fnames) ∈ walk → fn ∈ fnames →
      ∀ sz, gs (pyJoin root fn) = some sz →
        (sz, pyJoin root fn) ∈ collectFiles walk gs) := by
  constructor
  · intro sz p hmem
    induction walk with
    | nil => simp [collectFiles] at hmem
    | cons d rest ih =>
      rw [collectFiles, List.mem_append] at hmem
      rcases hmem with h | h
      · rw [collectStep, List.mem_filterMap] at h
        obtain ⟨fn, _, hfn⟩ := h
        rw [Option.map_eq_some'] at hfn
        obtain ⟨sz', hsz, heq⟩ := hfn
        obtain ⟨rfl, rfl⟩ := Prod.mk.injEq .. ▸ heq
        exact hsz
      · exact ih h
  · intro root fnames fn hd hfn sz hsz
    induction walk with
    | nil => simp at hd
    | cons d rest ih =>
      rw [collectFiles, List.mem_append]
      rcases List.mem_cons.mp hd with h | h
      · refine Or.inl ?_
        rw [collectStep, List.mem_filterMap]
        subst h
        exact ⟨fn, hfn, by rw [hsz]; rfl⟩
      · exact Or.inr (ih h)

/-- Claim C7: the size string uses the GB form `%.2f GB` (dividing by 2^30)
exactly when the size is at least 2^30 bytes and the MB form `%.2f MB`
(dividing by 2^20) otherwise, always with exactly two decimal digits; and on
the spec's `{500MB, 2GB, 10MB}` tree with K = 2 the scanner prints
`2.00 GB` then `500.00 MB`. -/
theorem formatted_sizes_gb_mb :
    (∀ size : Nat, 1024 ^ 3 ≤ size → formatSize size = fmt2 size (1024 ^ 3) ++ " GB") ∧
    (∀ size : Nat, size < 1024 ^ 3 → formatSize size = fmt2 size (1024 ^ 2) ++ " MB") ∧
    (∀ size den : Nat, ∃ ip frac : Nat, frac < 100 ∧
      fmt2 size den = Nat.repr ip ++ "." ++ fracChars frac ∧
      (fracChars frac).length = 2 ∧
      ip * 100 + frac = roundHalfEven (size * 100) den) ∧
    (largest_files "/d" demoWalk demoSize 2).body =
      [Line.text "2.00 GB - /d/big", Line.text "500.00 MB - /d/mid"] := by
  refine ⟨?_, ?_, ?_, by decide⟩
  · intro size h
    rw [formatSize, if_pos h]
  · intro size h
    rw [formatSize, if_neg (not_le.mpr h)]
  · intro size den
    refine ⟨roundHalfEven (size * 100) den / 100, roundHalfEven (size * 100) den % 100,
      Nat.mod_lt _ (by norm_num), rfl, rfl, ?_⟩
    rw [Nat.mul_comm]
    exact Nat.div_add_mod _ 100

lemma take_cons_take (b : α) (l : List α) (j : Nat) :
    (b :: l.take j).take j = (b :: l).take j := by
  cases j with
  | zero => rfl
  | succ i =>
    simp [List.take_succ_cons, List.take_take, Nat.min_eq_left (Nat.le_succ i)]

/-- Inserting into a buffer truncated to `k` and truncating again agrees
with truncating the insertion into the full list: the elements beyond
position `k` can never climb back into the first `k`. -/
lemma take_orderedInsert_take (x : Nat × String) :
    ∀ (l : List (Nat × String)) (k : Nat),
      (List.orderedInsert pairGe x (l.take k)).take k =
      (List.orderedInsert pairGe x l).take k := by
  intro l
  induction l with
  | nil => intro k; rw [List.take_nil]
  | cons b t ih =>
    intro k
    cases k with
    | zero => rw [List.take_zero, List.take_zero]
    | succ j =>
      rw [List.take_succ_cons, List.orderedInsert, List.orderedInsert]
      by_cases h : pairGe x b
      · rw [if_pos h, if_pos h, List.take_succ_cons, List.take_succ_cons,
          take_cons_take]
      · rw [if_neg h, if_neg h, List.take_succ_cons, List.take_succ_cons, ih j]

/-- On the total order `pairGe`, sorting after appending one element is the
same list as inserting that element into the sorted list. -/
lemma insertionSort_append_single (p : List (Nat × String)) (x : Nat × String) :
    List.insertionSort pairGe (p ++ [x]) =
    List.orderedInsert pairGe x (List.insertionSort pairGe p) := by
  have hperm : (List.insertionSort pairGe (p ++ [x])).Perm
      (List.orderedInsert pairGe x (List.insertionSort pairGe p)) :=
    ((List.perm_insertionSort pairGe _).trans
      ((List.perm_append_singleton x p).trans
        ((List.perm_insertionSort pairGe p).symm.cons x))).trans
      (List.perm_orderedInsert pairGe x _).symm
  exact List.eq_of_perm_of_sorted hperm (List.sorted_insertionSort pairGe _)
    ((List.sorted_insertionSort pairGe p).orderedInsert x _)

/-- The bounded-buffer fold, started from the truncated sort of a prefix,
computes the truncated sort of the whole input. -/
lemma heapTopK_fold (k : Nat) :
    ∀ (l p : List (Nat × String)),
      List.foldl (fun acc x => (List.orderedInsert pairGe x acc).take k)
        ((List.insertionSort pairGe p).take k) l =
      (List.insertionSort pairGe (p ++ l)).take k := by
  intro l
  induction l with
  | nil => intro p; rw [List.foldl_nil, List.append_nil]
  | cons x t ih =>
    intro p
    rw [List.foldl_cons, take_orderedInsert_take, ← insertionSort_append_single, ih,
      List.append_assoc, List.singleton_append]

/-- Claim C8: for a static set of collected pairs the selection is traversal
order independent — sorting then truncating any permutation of the collected
pairs gives the same list — and the bounded top-K buffer of size K over any
such permutation produces that same list. -/
theorem scanner_selection_order_independent (walk : List (String × List String))
    (gs : String → Option Nat) (k : Nat) (l' : List (Nat × String))
    (h : l'.Perm (collectFiles walk gs)) :
    selectTop l' (k : Int) = selectTop (collectFiles walk gs) (k : Int) ∧
    heapTopK k l' = selectTop (collectFiles walk gs) (k : Int) := by
  have hs : List.insertionSort pairGe l' =
      List.insertionSort pairGe (collectFiles walk gs) :=
    List.eq_of_perm_of_sorted
      ((List.perm_insertionSort pairGe l').trans
        (h.trans (List.perm_insertionSort pairGe _).symm))
      (List.sorted_insertionSort pairGe _) (List.sorted_insertionSort pairGe _)
  have hsel : ∀ m : List (Nat × String),
      selectTop m (k : Int) = (List.insertionSort pairGe m).take k := by
    intro m
    rw [selectTop, pyTake_nonneg (Int.natCast_nonneg k), Int.toNat_natCast]
  constructor
  · rw [hsel, hsel, hs]
  · have h0 : heapTopK k l' = (List.insertionSort pairGe ([] ++ l')).take k := by
      rw [← heapTopK_fold k l' []]
      simp only [heapTopK, List.insertionSort, List.take_nil]
    rw [h0, List.nil_append, hs, hsel]

/-- Witness for C8: a shuffled copy of the demo tree's collected pairs with
K = 2. -/
theorem scanner_selection_order_independent_witness :
    ([((10485760 : Nat), "/d/small"), (2147483648, "/d/big"),
        (524288000, "/d/mid")].Perm (collectFiles demoWalk demoSize)) ∧
    (selectTop [((10485760 : Nat), "/d/small"), (2147483648, "/d/big"),
        (524288000, "/d/mid")] ((2 : Nat) : Int) =
      selectTop (collectFiles demoWalk demoSize) ((2 : Nat) : Int) ∧
    heapTopK 2 [((10485760 : Nat), "/d/small"), (2147483648, "/d/big"),
        (524288000, "/d/mid")] =
      selectTop (collectFiles demoWalk demoSize) ((2 : Nat) : Int)) :=
  ⟨by decide, scanner_selection_order_independent demoWalk demoSize 2 _ (by decide)⟩

lemma hasNoneKey_iff (procs : List Proc) :
    hasNoneKey procs = true ↔ ∃ p ∈ procs, p.cpu_percent = some PyVal.none_v := by
  simp [hasNoneKey]

/-- Filtering one key value through an ordered insertion: every element the
insertion walks past has a strictly larger key than the inserted one, so at
the inserted element's own key value the insertion lands in front. -/
lemma filter_orderedInsert (x : Proc) (c : ℚ) :
    ∀ l : List Proc,
      (List.orderedInsert cpuGe x l).filter (fun y => decide (keyQ y = c)) =
      if keyQ x = c then x :: l.filter (fun y => decide (keyQ y = c))
      else l.filter (fun y => decide (keyQ y = c)) := by
  intro l
  induction l with
  | nil =>
    by_cases h : keyQ x = c <;> simp [List.orderedInsert, List.filter, h]
  | cons b t ih =>
    rw [List.orderedInsert]
    by_cases hrb : cpuGe x b
    · rw [if_pos hrb]
      by_cases h : keyQ x = c <;> simp [List.filter_cons, h]
    · rw [if_neg hrb, List.filter_cons]
      have hxb : keyQ x < keyQ b := not_le.mp fun hle => hrb hle
      by_cases h : keyQ x = c
      · have hbc : ¬ keyQ b = c := by
          rw [← h]
          exact ne_of_gt hxb
        simp [ih, h, hbc]
      · by_cases hb : keyQ b = c <;> simp [ih, h, hb, List.filter_cons]

/-- Stability of the ranker's sort, as a filter identity: restricted to the
entries of any one key value, the sorted list is the input list. -/
lemma filter_insertionSort (c : ℚ) :
    ∀ l : List Proc,
      (List.insertionSort cpuGe l).filter (fun y => decide (keyQ y = c)) =
      l.filter (fun y => decide (keyQ y = c)) := by
  intro l
  induction l with
  | nil => rfl
  | cons x t ih =>
    rw [List.insertionSort, filter_orderedInsert x c, List.filter_cons]
    by_cases h : keyQ x = c
    · rw [if_pos h, ih, if_pos (by simp [h])]
    · rw [if_neg h, ih, if_neg (by simp [h])]

/-- A list sorted descending by key whose restriction to each key value is
pairwise `Q` is pairwise "strictly larger key, or equal key and `Q`". -/
lemma pairwise_of_sorted_filters (Q : Proc → Proc → Prop) :
    ∀ l : List Proc, l.Sorted cpuGe →
      (∀ c : ℚ, (l.filter (fun y => decide (keyQ y = c))).Pairwise Q) →
      l.Pairwise fun a b => keyQ b < keyQ a ∨ (keyQ a = keyQ b ∧ Q a b) := by
  intro l
  induction l with
  | nil => intro _ _; exact List.Pairwise.nil
  | cons x t ih =>
    intro hs hf
    rw [List.sorted_cons] at hs
    rw [List.pairwise_cons]
    have htail : ∀ c : ℚ, (t.filter (fun y => decide (keyQ y = c))).Pairwise Q := by
      intro c
      have hfc := hf c
      rw [List.filter_cons] at hfc
      by_cases hxc : decide (keyQ x = c) = true
      · rw [if_pos hxc] at hfc
        exact hfc.of_cons
      · rw [if_neg hxc] at hfc
        exact hfc
    refine ⟨?_, ih hs.2 htail⟩
    intro b hb
    rcases lt_or_eq_of_le (show keyQ b ≤ keyQ x from hs.1 b hb) with hlt | heq
    · exact Or.inl hlt
    · refine Or.inr ⟨heq.symm, ?_⟩
      have hfx := hf (keyQ x)
      rw [List.filter_cons, if_pos (by simp)] at hfx
      exact (List.pairwise_cons.mp hfx).1 b (List.mem_filter.mpr ⟨hb, by simp [heq]⟩)

/-- Counterexample to claim C3: two processes with equal usage 5.0, listed
with PID 3 before PID 1.  Python's stable sort keeps the snapshot order, so
the code returns PID 3 first, while sorting with the spec's PID-ascending
tie-break would return PID 1 first. -/
theorem cpu_tiebreak_not_pid_ascending :
    rankProcesses [⟨3, "c", some (PyVal.num 5)⟩, ⟨1, "a", some (PyVal.num 5)⟩] =
      Except.ok [⟨3, "c", some (PyVal.num 5)⟩, ⟨1, "a", some (PyVal.num 5)⟩] ∧
    pyTake 2 (specCpuSort [⟨3, "c", some (PyVal.num 5)⟩, ⟨1, "a", some (PyVal.num 5)⟩]) =
      [⟨1, "a", some (PyVal.num 5)⟩, ⟨3, "c", some (PyVal.num 5)⟩] ∧
    ([⟨3, "c", some (PyVal.num 5)⟩, ⟨1, "a", some (PyVal.num 5)⟩] : List Proc) ≠
      [⟨1, "a", some (PyVal.num 5)⟩, ⟨3, "c", some (PyVal.num 5)⟩] :=
  ⟨rfl, rfl, by decide⟩

/-- Claim C3 (amended): for every process list whose present cpu values are
all numeric and every N, the ranker sorts by usage descending with ties kept
in snapshot order (Python's sort is stable): the sorted list is a
permutation of the input, descending by key, and filtered to any one usage
value it is exactly the input's sublist at that value; consequently ties
come out PID-ascending whenever the snapshot itself lists PIDs in ascending
order.  The returned entries are the slice `[:n]` of that list. -/
theorem cpu_rank_sorted_stable (procs : List Proc) (n : Int)
    (hv : ∀ p ∈ procs, p.cpu_percent ≠ some PyVal.none_v) :
    ∃ l : List Proc,
      rankProcesses procs = Except.ok l ∧
      l.Perm procs ∧
      l.Sorted cpuGe ∧
      (∀ c : ℚ, l.filter (fun y => decide (keyQ y = c)) =
        procs.filter (fun y => decide (keyQ y = c))) ∧
      ((procs.Pairwise fun a b => a.pid < b.pid) →
        l.Pairwise fun a b => keyQ b < keyQ a ∨ (keyQ a = keyQ b ∧ a.pid < b.pid)) ∧
      (0 ≤ n → pyTake n l = l.take n.toNat) := by
  have hnone : hasNoneKey procs = false := by
    rw [← Bool.not_eq_true, hasNoneKey_iff]
    rintro ⟨p, hp, hpeq⟩
    exact hv p hp hpeq
  have hok : rankProcesses procs = Except.ok (List.insertionSort cpuGe procs) := by
    rw [rankProcesses, if_neg]
    rintro ⟨_, h2⟩
    rw [hnone] at h2
    exact Bool.false_ne_true h2
  refine ⟨List.insertionSort cpuGe procs, hok, List.perm_insertionSort cpuGe procs,
    List.sorted_insertionSort cpuGe procs, fun c => filter_insertionSort c procs,
    ?_, fun hn => pyTake_nonneg hn _⟩
  intro hpid
  exact pairwise_of_sorted_filters _ _ (List.sorted_insertionSort cpuGe procs)
    fun c => (filter_insertionSort c procs).symm ▸ hpid.filter _

/-- Witness for C3 (amended): a three-entry snapshot with a tie, PIDs
ascending. -/
theorem cpu_rank_sorted_stable_witness :
    (∀ p ∈ ([⟨1, "a", some (PyVal.num 9)⟩, ⟨2, "b", some (PyVal.num 9)⟩,
        ⟨4, "d", some (PyVal.num 3)⟩] : List Proc),
      p.cpu_percent ≠ some PyVal.none_v) ∧
    (∃ l : List Proc,
      rankProcesses [⟨1, "a", some (PyVal.num 9)⟩, ⟨2, "b", some (PyVal.num 9)⟩,
        ⟨4, "d", some (PyVal.num 3)⟩] = Except.ok l ∧
      l.Perm [⟨1, "a", some (PyVal.num 9)⟩, ⟨2, "b", some (PyVal.num 9)⟩,
        ⟨4, "d", some (PyVal.num 3)⟩] ∧
      l.Sorted cpuGe ∧
      (∀ c : ℚ, l.filter (fun y => decide (keyQ y = c)) =
        ([⟨1, "a", some (PyVal.num 9)⟩, ⟨2, "b", some (PyVal.num 9)⟩,
          ⟨4, "d", some (PyVal.num 3)⟩] : List Proc).filter
            (fun y => decide (keyQ y = c))) ∧
      ((([⟨1, "a", some (PyVal.num 9)⟩, ⟨2, "b", some (PyVal.num 9)⟩,
          ⟨4, "d", some (PyVal.num 3)⟩] : List Proc).Pairwise
            fun a b => a.pid < b.pid) →
        l.Pairwise fun a b => keyQ b < keyQ a ∨ (keyQ a = keyQ b ∧ a.pid < b.pid)) ∧
      (0 ≤ (2 : Int) → pyTake 2 l = l.take (2 : Int).toNat)) :=
  ⟨by decide, cpu_rank_sorted_stable _ 2 (by decide)⟩

/-- The spec's scenario snapshot for C4: PID 3 has no cpu reading (the key
is absent from its info dict). -/
def cpuScenario : List Proc :=
  [⟨1, "a", some (PyVal.num 5)⟩, ⟨2, "b", some (PyVal.num 90)⟩, ⟨3, "c", none⟩]

/-- Claim C4: an entry whose cpu_percent key is absent gets sort key 0
(`info.get('cpu_percent', 0)`) and is never dropped — the ranking is a
permutation of the whole snapshot; and on the scenario snapshot
`[{1,a,5.0}, {2,b,90.0}, {3,c,absent}]` with N = 2 the ranker returns
PID 2 (90.0) then PID 1 (5.0). -/
theorem cpu_absent_ranked_zero (procs : List Proc)
    (hv : ∀ p ∈ procs, p.cpu_percent ≠ some PyVal.none_v) :
    (∀ p ∈ procs, p.cpu_percent = none → procKey p = PyVal.num 0) ∧
    (∃ l : List Proc, rankProcesses procs = Except.ok l ∧ l.Perm procs) ∧
    rankProcesses cpuScenario = Except.ok
      [⟨2, "b", some (PyVal.num 90)⟩, ⟨1, "a", some (PyVal.num 5)⟩, ⟨3, "c", none⟩] ∧
    pyTake 2 [⟨2, "b", some (PyVal.num 90)⟩, ⟨1, "a", some (PyVal.num 5)⟩,
        (⟨3, "c", none⟩ : Proc)] =
      [⟨2, "b", some (PyVal.num 90)⟩, ⟨1, "a", some (PyVal.num 5)⟩] := by
  refine ⟨?_, ?_, rfl, rfl⟩
  · intro p _ hp
    rw [procKey, hp]
    rfl
  · have hnone : hasNoneKey procs = false := by
      rw [← Bool.not_eq_true, hasNoneKey_iff]
      rintro ⟨p, hp, hpeq⟩
      exact hv p hp hpeq
    refine ⟨List.insertionSort cpuGe procs, ?_, List.perm_insertionSort cpuGe procs⟩
    rw [rankProcesses, if_neg]
    rintro ⟨_, h2⟩
    rw [hnone] at h2
    exact Bool.false_ne_true h2

/-- Witness for C4 at the scenario snapshot itself. -/
theorem cpu_absent_ranked_zero_witness :
    (∀ p ∈ cpuScenario, p.cpu_percent ≠ some PyVal.none_v) ∧
    ((∀ p ∈ cpuScenario, p.cpu_percent = none → procKey p = PyVal.num 0) ∧
    (∃ l : List Proc, rankProcesses cpuScenario = Except.ok l ∧ l.Perm cpuScenario) ∧
    rankProcesses cpuScenario = Except.ok
      [⟨2, "b", some (PyVal.num 90)⟩, ⟨1, "a", some (PyVal.num 5)⟩, ⟨3, "c", none⟩] ∧
    pyTake 2 [⟨2, "b", some (PyVal.num 90)⟩, ⟨1, "a", some (PyVal.num 5)⟩,
        (⟨3, "c", none⟩ : Proc)] =
      [⟨2, "b", some (PyVal.num 90)⟩, ⟨1, "a", some (PyVal.num 5)⟩]) :=
  ⟨by decide, cpu_absent_ranked_zero cpuScenario (by decide)⟩

/-- Counterexample to claim C9: a single-entry process list whose one entry
carries a present `None` under cpu_percent.  Python's sort performs no
comparison on a list of length one, so the ranker succeeds — the claim's
"for every process list ... the sort fails" is false here. -/
theorem cpu_present_none_singleton_succeeds :
    (∃ p ∈ ([⟨1, "a", some PyVal.none_v⟩] : List Proc),
      p.cpu_percent = some PyVal.none_v) ∧
    rankProcesses [⟨1, "a", some PyVal.none_v⟩] =
      Except.ok [⟨1, "a", some PyVal.none_v⟩] :=
  ⟨⟨⟨1, "a", some PyVal.none_v⟩, by decide, rfl⟩, rfl⟩

/-- Claim C9 (amended): the ranker's sort fails exactly when the list has at
least two entries and some entry carries a present non-numeric (None)
cpu_percent value; with fewer than two entries no comparison happens and the
ranker succeeds even on a present None.  The usage = 0 fallback applies only
to an absent key. -/
theorem cpu_rank_fails_iff_present_none (procs : List Proc) :
    (∃ e, rankProcesses procs = Except.error e) ↔
      (2 ≤ procs.length ∧ ∃ p ∈ procs, p.cpu_percent = some PyVal.none_v) := by
  rw [rankProcesses]
  by_cases h : 2 ≤ procs.length ∧ hasNoneKey procs = true
  · rw [if_pos h]
    constructor
    · intro _
      exact ⟨h.1, (hasNoneKey_iff procs).mp h.2⟩
    · intro _
      exact ⟨_, rfl⟩
  · rw [if_neg h]
    constructor
    · rintro ⟨e, he⟩
      exact absurd he (by simp)
    · rintro ⟨h2, hex⟩
      exact absurd ⟨h2, (hasNoneKey_iff procs).mpr hex⟩ h

/-- A run whose scan root does not exist: `os.walk` yields nothing, so the
walk is empty and every size query fails. -/
def missingRootEnv : Env :=
  { preLines := [Line.text "SYSTEM INFO"]
    path := "/does-not-exist"
    walk := []
    getsize := fun _ => none
    snap := Except.ok []
    tempLines := [Line.text "SYSTEM TEMPERATURES"]
    nvidiaLines := [Line.text "GPU 0: 41C"] }

/-- Claim C1, evaluated at the failing input (code bug): on a root that
cannot be opened the scanner's body is empty AND no exception and no error
line is produced — `os.walk`'s default `onerror=None` swallows the failure,
so the `except` branch that would print `Error: {e}` never runs and the
output is indistinguishable from a genuinely empty tree.  The report does
proceed: the run completes with the temperature lines printed. -/
theorem scanner_missing_root_silently_empty :
    (largest_files "/does-not-exist" [] (fun _ => none) 3).body = [] ∧
    (largest_files "/does-not-exist" [] (fun _ => none) 3).exc = none ∧
    (pyMain missingRootEnv ⟨3, 3, false, false⟩).2 = none ∧
    Line.text "SYSTEM TEMPERATURES" ∈ (pyMain missingRootEnv ⟨3, 3, false, false⟩).1 :=
  ⟨rfl, rfl, rfl, by decide⟩

/-- A run in which the process snapshot itself is unavailable:
`psutil.process_iter` raises. -/
def cpuFailEnv : Env :=
  { preLines := [Line.text "SYSTEM INFO"]
    path := "/d"
    walk := demoWalk
    getsize := demoSize
    snap := Except.error "AccessDenied: process list unavailable"
    tempLines := [Line.text "SYSTEM TEMPERATURES"]
    nvidiaLines := [Line.text "GPU 0: 41C"] }

/-- Claim C6, evaluated at the failing input (code bug): when the process
list is unavailable, `top_cpu_processes` — which has no `try`/`except` —
lets the exception escape `main`: the run terminates with an uncaught
exception, the CPU section prints no error line (its body is empty), and
the temperature and nvidia sections never run, contradicting the claimed
per-section fault isolation. -/
theorem cpu_failure_aborts_report :
    (pyMain cpuFailEnv ⟨2, 3, false, false⟩).2 =
      some "AccessDenied: process list unavailable" ∧
    (top_cpu_processes (Except.error "AccessDenied: process list unavailable") 3).body
      = [] ∧
    Line.text "SYSTEM TEMPERATURES" ∉ (pyMain cpuFailEnv ⟨2, 3, false, false⟩).1 ∧
    Line.text "GPU 0: 41C" ∉ (pyMain cpuFailEnv ⟨2, 3, false, false⟩).1 :=
  ⟨rfl, rfl, by decide, by decide⟩

end Infodump
